import Mathlib

/-!
Verification of the wb-repricer core against its specification.

The TypeScript sources are embedded shallowly: JS numbers are modelled as
rationals (ℚ), `Math.round` as floor of x + 1/2 (JS rounds half toward
positive infinity), `Math.ceil` as the integer ceiling, and functions that
can `throw` return `Except String`.  Human-readable message strings that
interpolate numbers are omitted from record types; all fields consulted by
the control flow (error kinds, critical flags, suggested prices) are kept.
-/

/-- JS Math.round: rounds half toward positive infinity. -/
def jsRound (x : ℚ) : ℤ := ⌊x + 1/2⌋

/-- Rounding to 2 decimals, the idiom Math.round of x * 100 divided by 100
used throughout UnitEconomicsEngine. -/
def round2 (x : ℚ) : ℚ := ((jsRound (x * 100) : ℤ) : ℚ) / 100

/-- UnitEconomics from shared/types/economics.types: the cost inputs of a SKU.
The currency tag is constant and not modelled. -/
structure UnitEconomics where
  costPrice : ℚ
  wbCommission : ℚ
  logistics : ℚ
  storage : ℚ
  spp : ℚ
  tax : ℚ
deriving DecidableEq

/-- UnitEconomicsEngine.calculateProfit from
src/backend/src/core/engines/economics-engine/UnitEconomicsEngine.ts. -/
def calculateProfit (price : ℚ) (economics : UnitEconomics) : ℚ :=
  let afterSPP := price * (1 - economics.spp / 100)
  let commission := afterSPP * (economics.wbCommission / 100)
  let tax := afterSPP * (economics.tax / 100)
  round2 (afterSPP - economics.costPrice - commission
    - economics.logistics - economics.storage - tax)

/-- UnitEconomicsEngine.calculateMargin: rounded profit over price, again
rounded to 2 decimals.  In JS a zero price yields NaN; in ℚ division by
zero yields 0 (no claim is evaluated at price 0). -/
def calculateMargin (price : ℚ) (economics : UnitEconomics) : ℚ :=
  round2 (calculateProfit price economics / price * 100)

/-- ConditionEvaluator.calculateProfit (private helper in
src/backend/src/core/engines/strategy-engine/conditions/ConditionEvaluator.ts):
same formula as the engine but WITHOUT the 2-decimal rounding. -/
def conditionProfit (price : ℚ) (economics : UnitEconomics) : ℚ :=
  let afterSPP := price * (1 - economics.spp / 100)
  let commission := afterSPP * (economics.wbCommission / 100)
  let tax := afterSPP * (economics.tax / 100)
  afterSPP - economics.costPrice - commission
    - economics.logistics - economics.storage - tax

/-- ConditionEvaluator.calculateMargin: unrounded margin. -/
def conditionMargin (price : ℚ) (economics : UnitEconomics) : ℚ :=
  conditionProfit price economics / price * 100

/-- UnitEconomicsEngine.calculateBreakeven; throws when variable costs
reach 100 percent. -/
def calculateBreakeven (economics : UnitEconomics) : Except String ℤ :=
  let fixedCosts := economics.costPrice + economics.logistics + economics.storage
  let variableCostRate := (economics.wbCommission + economics.spp + economics.tax) / 100
  if variableCostRate ≥ 1 then
    .error "Variable costs >= 100%, breakeven impossible"
  else
    .ok ⌈fixedCosts / (1 - variableCostRate)⌉

/-- The economics fixture used by the spec and by
src/backend/tests/unit/UnitEconomicsEngine.test.ts. -/
def econFixture : UnitEconomics :=
  { costPrice := 800, wbCommission := 15, logistics := 50
    storage := 0, spp := 0, tax := 6 }

/-- Economics with a 50 percent commission and no fixed costs, used to
exhibit non-monotonicity of the rounded margin. -/
def econHalf : UnitEconomics :=
  { costPrice := 0, wbCommission := 50, logistics := 0
    storage := 0, spp := 0, tax := 0 }

/-- Constraint kinds from shared/types/strategy.types.ts. -/
inductive ConstraintType where
  | min_price | max_price | min_profit | min_margin
  | max_delta_per_step | max_changes_per_day
deriving DecidableEq

/-- A configured constraint (shared/types/strategy.types.ts); the opaque id
string is dropped. -/
structure Constraint where
  type : ConstraintType
  value : ℚ
  enabled : Bool
deriving DecidableEq

/-- The kind tags appearing in PriceValidationError.type. -/
inductive PriceErrorType where
  | below_breakeven | min_profit_violated | min_margin_violated
  | min_price_violated | max_price_exceeded
deriving DecidableEq

/-- PriceValidationError without its human-readable message string. -/
structure PriceValidationError where
  type : PriceErrorType
  critical : Bool
  suggestedPrice : Option ℚ
deriving DecidableEq

/-- UnitEconomicsEngine.checkConstraint: the per-constraint check; the
max_delta_per_step branch is an unimplemented TODO in the source and
max_changes_per_day falls into the default branch. -/
def checkConstraint (c : Constraint) (price profit margin : ℚ)
    (breakeven : ℤ) : Option PriceValidationError :=
  match c.type with
  | .min_profit =>
    if profit < c.value then
      some { type := .min_profit_violated, critical := true
             suggestedPrice := some ((breakeven : ℚ) + c.value) }
    else none
  | .min_margin =>
    if margin < c.value then
      some { type := .min_margin_violated, critical := true
             suggestedPrice := none }
    else none
  | .min_price =>
    if price < c.value then
      some { type := .min_price_violated, critical := true
             suggestedPrice := some c.value }
    else none
  | .max_price =>
    if price > c.value then
      some { type := .max_price_exceeded, critical := false
             suggestedPrice := some c.value }
    else none
  | .max_delta_per_step => none
  | .max_changes_per_day => none

/-- The breakevenError object validatePrice builds when the proposed price
is below the breakeven. -/
def breakevenErrorFor (breakeven : ℤ) : PriceValidationError :=
  { type := .below_breakeven, critical := true
    suggestedPrice := some (breakeven : ℚ) }

/-- The error list built by validatePrice: one error per enabled failing
constraint, in list order, then the unconditional breakeven floor check,
whose error is appended only when no below_breakeven error is present yet. -/
def validationErrors (price profit margin : ℚ) (breakeven : ℤ)
    (constraints : List Constraint) : List PriceValidationError :=
  let errors := constraints.filterMap fun c =>
    if c.enabled then checkConstraint c price profit margin breakeven else none
  if price < (breakeven : ℚ) then
    if (errors.find? fun e => e.type == PriceErrorType.below_breakeven).isNone then
      errors ++ [breakevenErrorFor breakeven]
    else errors
  else errors

/-- UnitEconomicsEngine.calculatePriceForProfit. -/
def calculatePriceForProfit (economics : UnitEconomics) (targetProfit : ℚ) : ℚ :=
  let fixedCosts := economics.costPrice + economics.logistics + economics.storage
  let variableCostRate := (economics.wbCommission + economics.spp + economics.tax) / 100
  (targetProfit + fixedCosts) / (1 - variableCostRate)

/-- UnitEconomicsEngine.calculatePriceForMargin; throws when the target
margin is unreachable for the cost structure. -/
def calculatePriceForMargin (economics : UnitEconomics) (targetMargin : ℚ) :
    Except String ℚ :=
  let fixedCosts := economics.costPrice + economics.logistics + economics.storage
  let variableCostRate := (economics.wbCommission + economics.spp + economics.tax) / 100
  let denominator := 1 - variableCostRate - targetMargin / 100
  if denominator ≤ 0 then
    .error "Cannot achieve target margin with current costs"
  else
    .ok (fixedCosts / denominator)

/-- The constraint loop of UnitEconomicsEngine.calculateMinAllowedPrice,
accumulating the running maximum and propagating the min_margin throw. -/
def minAllowedLoop (economics : UnitEconomics) :
    List Constraint → ℚ → Except String ℚ
  | [], acc => .ok acc
  | c :: rest, acc =>
    if c.enabled then
      match c.type with
      | .min_profit =>
        minAllowedLoop economics rest (max acc (calculatePriceForProfit economics c.value))
      | .min_margin =>
        match calculatePriceForMargin economics c.value with
        | .error msg => .error msg
        | .ok p => minAllowedLoop economics rest (max acc p)
      | .min_price => minAllowedLoop economics rest (max acc c.value)
      | _ => minAllowedLoop economics rest acc
    else minAllowedLoop economics rest acc

/-- UnitEconomicsEngine.calculateMinAllowedPrice: maximum of the breakeven
and the inverse prices of all enabled min constraints, rounded up. -/
def calculateMinAllowedPrice (economics : UnitEconomics)
    (constraints : List Constraint) : Except String ℤ :=
  match calculateBreakeven economics with
  | .error msg => .error msg
  | .ok breakeven =>
    match minAllowedLoop economics constraints (breakeven : ℚ) with
    | .error msg => .error msg
    | .ok minPrice => .ok ⌈minPrice⌉

/-- PriceValidationResult (shared/types/economics.types); suggestedPrice and
minAllowedPrice are populated together from calculateMinAllowedPrice. -/
structure PriceValidationResult where
  valid : Bool
  errors : List PriceValidationError
  profit : ℚ
  margin : ℚ
  breakeven : ℤ
  suggestedPrice : Option ℤ
  minAllowedPrice : Option ℤ
deriving DecidableEq

/-- UnitEconomicsEngine.validatePrice, the central contract.  The JS method
can throw from calculateBreakeven and (when any error was recorded) from
calculateMinAllowedPrice; both surface as Except.error here. -/
def validatePrice (proposedPrice : ℚ) (economics : UnitEconomics)
    (constraints : List Constraint) : Except String PriceValidationResult :=
  let profit := calculateProfit proposedPrice economics
  let margin := calculateMargin proposedPrice economics
  match calculateBreakeven economics with
  | .error msg => .error msg
  | .ok breakeven =>
    let errors := validationErrors proposedPrice profit margin breakeven constraints
    if 0 < errors.length then
      match calculateMinAllowedPrice economics constraints with
      | .error msg => .error msg
      | .ok minAllowed =>
        .ok { valid := errors.isEmpty, errors := errors, profit := profit
              margin := margin, breakeven := breakeven
              suggestedPrice := some minAllowed, minAllowedPrice := some minAllowed }
    else
      .ok { valid := errors.isEmpty, errors := errors, profit := profit
            margin := margin, breakeven := breakeven
            suggestedPrice := none, minAllowedPrice := none }

/-- The result validatePrice returns for price 1000 with the fixture
economics and an empty constraint list (profit -60, margin -6,
breakeven 1076); used to witness the C1 theorem on a concrete run. -/
def resBelowBreakeven : PriceValidationResult :=
  { valid := false
    errors := [{ type := .below_breakeven, critical := true, suggestedPrice := some 1076 }]
    profit := -60, margin := -6, breakeven := 1076
    suggestedPrice := some 1076, minAllowedPrice := some 1076 }

/-- An enabled min_margin constraint demanding a 100 percent margin, which
no price can reach for the fixture cost structure. -/
def minMarginConstraint : Constraint :=
  { type := .min_margin, value := 100, enabled := true }

/-- Comparison operators of shared/types/strategy.types.ts; the source
values in and not_in are spelled isIn and notIn because `in` is reserved. -/
inductive ConditionOperator where
  | eq | neq | gt | gte | lt | lte | isIn | notIn
deriving DecidableEq

/-- Expected values carried by a condition.  The TS type also admits
strings, whose relational comparisons would go through JS ToPrimitive
coercion; the metrics compared are numeric, so the embedding keeps numbers
and number arrays. -/
inductive CondValue where
  | num (q : ℚ)
  | nums (l : List ℚ)
deriving DecidableEq

/-- Result of resolving a metric name: a number, null (a null position), or
undefined (unknown metric). -/
inductive MetricValue where
  | num (q : ℚ) | null | undefinedM
deriving DecidableEq

/-- A competitor row of the market snapshot, with the fields the
competitive-hold strategy consults. -/
structure Competitor where
  priceWithDiscount : ℚ
  inStock : Bool
deriving DecidableEq

/-- The marketData part of SKUContext.  The SKUContext interface in
ConditionEvaluator.ts declares only the four numeric fields; the
orchestrator additionally passes a competitors array, so its presence is
optional here (the strategies test it with Array.isArray). -/
structure MarketData where
  minPrice : ℚ
  maxPrice : ℚ
  medianPrice : ℚ
  competitorCount : ℚ
  competitors : Option (List Competitor)
deriving DecidableEq

/-- The sku part of SKUContext. -/
structure SKUInfo where
  id : String
  currentPrice : ℚ
  position : Option ℚ
  economics : UnitEconomics
deriving DecidableEq

/-- The evaluation context handed to conditions and strategies. -/
structure SKUContext where
  sku : SKUInfo
  marketData : MarketData
deriving DecidableEq

/-- ConditionEvaluator.getMetricValue: resolves a metric name against the
context; unknown names resolve to undefined, a null position to null. -/
def getMetricValue (metric : String) (context : SKUContext) : MetricValue :=
  match metric with
  | "position" =>
    match context.sku.position with
    | some p => .num p
    | none => .null
  | "my_price" | "current_price" => .num context.sku.currentPrice
  | "competitor_min_price" => .num context.marketData.minPrice
  | "competitor_max_price" => .num context.marketData.maxPrice
  | "competitor_median_price" => .num context.marketData.medianPrice
  | "competitor_count" => .num context.marketData.competitorCount
  | "margin" => .num (conditionMargin context.sku.currentPrice context.sku.economics)
  | "profit" => .num (conditionProfit context.sku.currentPrice context.sku.economics)
  | _ => .undefinedM

/-- ConditionEvaluator.evaluateOperator on a numeric actual value.  The
isIn and notIn branches require the expected value to be an array, exactly
as the source guards with Array.isArray. -/
def evaluateOperator (actual : ℚ) (operator : ConditionOperator)
    (expected : CondValue) : Bool :=
  match operator with
  | .eq => match expected with | .num q => actual == q | .nums _ => false
  | .neq => match expected with | .num q => actual != q | .nums _ => true
  | .gt => match expected with | .num q => decide (actual > q) | .nums _ => false
  | .gte => match expected with | .num q => decide (actual ≥ q) | .nums _ => false
  | .lt => match expected with | .num q => decide (actual < q) | .nums _ => false
  | .lte => match expected with | .num q => decide (actual ≤ q) | .nums _ => false
  | .isIn => match expected with | .nums l => decide (actual ∈ l) | .num _ => false
  | .notIn => match expected with | .nums l => decide (actual ∉ l) | .num _ => false

/-- A condition tree (shared/types/strategy.types.ts); the and and or
sub-lists are empty when the optional fields are absent.  The opaque id is
dropped. -/
inductive Condition where
  | mk (metric : String) (operator : ConditionOperator) (value : CondValue)
       (andList : List Condition) (orList : List Condition)

/-- The metric field of a condition. -/
def Condition.metric : Condition → String
  | .mk m _ _ _ _ => m

/-- The operator field of a condition. -/
def Condition.operator : Condition → ConditionOperator
  | .mk _ o _ _ _ => o

/-- The expected-value field of a condition. -/
def Condition.value : Condition → CondValue
  | .mk _ _ v _ _ => v

/-- The and sub-conditions of a condition. -/
def Condition.andList : Condition → List Condition
  | .mk _ _ _ a _ => a

/-- The or sub-conditions of a condition. -/
def Condition.orList : Condition → List Condition
  | .mk _ _ _ _ o => o

mutual

/-- ConditionEvaluator.evaluate: false on an undefined or null metric;
otherwise the base comparison, refined by the and sub-list (all must hold)
and, when the or sub-list is nonempty, by the or sub-list (at least one
must hold). -/
def evaluate (context : SKUContext) : Condition → Bool
  | .mk metric operator value andList orList =>
    match getMetricValue metric context with
    | .undefinedM => false
    | .null => false
    | .num actual =>
      let result := evaluateOperator actual operator value
      evaluateAll context andList
        && (orList.isEmpty || evaluateAny context orList) && result

/-- The and-loop of ConditionEvaluator.evaluate. -/
def evaluateAll (context : SKUContext) : List Condition → Bool
  | [] => true
  | c :: rest => evaluate context c && evaluateAll context rest

/-- The or-loop of ConditionEvaluator.evaluate. -/
def evaluateAny (context : SKUContext) : List Condition → Bool
  | [] => false
  | c :: rest => evaluate context c || evaluateAny context rest

end

/-- The base comparison of a condition: metric resolution followed by the
operator check, false on undefined or null. -/
def baseComparison (context : SKUContext) (c : Condition) : Bool :=
  match getMetricValue c.metric context with
  | .num actual => evaluateOperator actual c.operator c.value
  | _ => false

/-- A sample evaluation context: SKU at price 1000, position 5, fixture
economics, three competitors summarised by the snapshot numbers. -/
def ctxSample : SKUContext :=
  { sku := { id := "sku-1", currentPrice := 1000, position := some 5
             economics := econFixture }
    marketData := { minPrice := 900, maxPrice := 1100, medianPrice := 1000
                    competitorCount := 3, competitors := some [] } }

/-- A condition that is false on ctxSample: position greater than 100. -/
def condFalseChild : Condition := .mk "position" .gt (.num 100) [] []

/-- A condition whose base comparison holds on ctxSample but whose and-list
contains the false child condFalseChild. -/
def condAndFalse : Condition :=
  .mk "current_price" .eq (.num 1000) [condFalseChild] []

/-- A price proposal.  The price is an Option: none models the JS NaN that
the competitive-hold strategy produces when it takes the median of an empty
list.  Confidence is none when a branch omits it (the action executor);
the human-readable reason string is not modelled. -/
structure PriceProposal where
  price : Option ℚ
  confidence : Option ℚ
deriving DecidableEq

/-- Insert into an ascending list, used by sortAsc. -/
def sortedInsert (x : ℚ) : List ℚ → List ℚ
  | [] => [x]
  | y :: rest => if x ≤ y then x :: y :: rest else y :: sortedInsert x rest

/-- Ascending sort, modelling the JS Array sort with the numeric comparator
used by BaseStrategy (insertion sort; on rationals the output is the same
sorted list). -/
def sortAsc : List ℚ → List ℚ
  | [] => []
  | x :: rest => sortedInsert x (sortAsc rest)

/-- BaseStrategy.median; none models the JS NaN obtained by indexing an
empty sorted array. -/
def median (arr : List ℚ) : Option ℚ :=
  let sorted := sortAsc arr
  let mid := sorted.length / 2
  if sorted.length % 2 == 0 then
    match sorted.get? (mid - 1), sorted.get? mid with
    | some a, some b => some ((a + b) / 2)
    | _, _ => none
  else sorted.get? mid

/-- BaseStrategy.removeLowest: sort ascending, then drop the lowest
ceil(length times percent) entries. -/
def removeLowest (arr : List ℚ) (percent : ℚ) : List ℚ :=
  let sorted := sortAsc arr
  let removeCount := ⌈(sorted.length : ℚ) * percent⌉
  sorted.drop removeCount.toNat

/-- CompetitiveHoldStrategy.getCompetitorPrices (src/unnamed/part_004): the
in-stock competitors with a positive discounted price; when the snapshot
carries no competitors array at all, a positive medianPrice is used as the
single data point. -/
def getCompetitorPrices (marketData : MarketData) : List ℚ :=
  match marketData.competitors with
  | some competitors =>
    (competitors.filter fun c => c.inStock && decide (c.priceWithDiscount > 0)).map
      fun c => c.priceWithDiscount
  | none =>
    if marketData.medianPrice > 0 then [marketData.medianPrice] else []

/-- CompetitiveHoldStrategy.execute (src/unnamed/part_004).  With no
gathered prices it holds the current price at confidence 0.3; otherwise it
trims the lowest 20 percent and takes the median of the rest.  When only
one price was gathered the trimmed list is empty and the JS median is NaN;
NaN compares false against the 2 percent band and Math.round(NaN) is NaN,
so the proposal price is none.  A JS division by a zero current price
yields Infinity or NaN, which also fails the band test. -/
def competitiveHoldExecute (context : SKUContext) : PriceProposal :=
  let prices := getCompetitorPrices context.marketData
  if prices.isEmpty then
    { price := some context.sku.currentPrice, confidence := some 0.3 }
  else
    let filtered := removeLowest prices 0.2
    match median filtered with
    | none => { price := none, confidence := some 0.8 }
    | some targetPrice =>
      let currentPrice := context.sku.currentPrice
      if currentPrice ≠ 0 ∧ |targetPrice - currentPrice| / currentPrice < 0.02 then
        { price := some currentPrice, confidence := some 0.7 }
      else
        { price := some ((jsRound targetPrice : ℤ) : ℚ), confidence := some 0.8 }

/-- The undercut branch of PriceLeaderStrategy.execute: 2 percent below the
market minimum, clamped to at most a 10 percent single-step decrease. -/
def priceLeaderUndercut (context : SKUContext) : PriceProposal :=
  { price := some (max (context.marketData.minPrice * 0.98)
      (context.sku.currentPrice - context.sku.currentPrice * 0.1))
    confidence := some 0.7 }

/-- PriceLeaderStrategy.execute: hold at confidence 0.9 when the position
is non-null and at most 3, otherwise undercut. -/
def priceLeaderExecute (context : SKUContext) : PriceProposal :=
  match context.sku.position with
  | some p =>
    if p ≤ 3 then
      { price := some context.sku.currentPrice, confidence := some 0.9 }
    else priceLeaderUndercut context
  | none => priceLeaderUndercut context

/-- MarginMaximizerStrategy.execute (src/unnamed/part_004): with a non-null
position of at most 5, raise by 2 percent capped at 10 percent above the
competitor median; otherwise hold at confidence 0.6. -/
def marginMaximizerExecute (context : SKUContext) : PriceProposal :=
  match context.sku.position with
  | some p =>
    if p ≤ 5 then
      { price := some (min (context.sku.currentPrice * (1 + 0.02))
          (context.marketData.medianPrice * 1.1))
        confidence := some 0.8 }
    else { price := some context.sku.currentPrice, confidence := some 0.6 }
  | none => { price := some context.sku.currentPrice, confidence := some 0.6 }

/-- CompetitiveHoldStrategy.generateTopPrices
(src/backend/src/core/engines/strategy-engine/strategies/CompetitiveHoldStrategy.ts):
ten synthetic prices sampled with Math.random().  The random source is made
explicit as a stream of draws indexed by call order. -/
def generateTopPrices (marketData : MarketData) (rand : ℕ → ℚ) : List ℚ :=
  let range := marketData.maxPrice - marketData.minPrice
  (List.range 10).map fun i => marketData.minPrice + rand i * range

/-- CompetitiveHoldStrategy.execute of the backend file (the synthetic
Math.random MVP implementation, distinct from the src/unnamed/part_004
version): median of the generated prices after trimming the lowest 20
percent. -/
def competitiveHoldExecuteSynthetic (context : SKUContext)
    (rand : ℕ → ℚ) : PriceProposal :=
  let topPrices := generateTopPrices context.marketData rand
  let filtered := removeLowest topPrices 0.2
  { price := median filtered, confidence := some 0.8 }

/-- Strategy type tags from shared/types/strategy.types.ts. -/
inductive StrategyType where
  | competitive_hold | price_leader | margin_maximizer
  | inventory_driven | clearance
deriving DecidableEq

/-- Stop condition kinds. -/
inductive StopConditionType where
  | price_reached | time_elapsed | position_reached | stock_level
deriving DecidableEq

/-- A stop condition; the optional met flag is not consulted by the engine. -/
structure StopCondition where
  type : StopConditionType
  value : ℚ
deriving DecidableEq

/-- Action kinds from shared/types/strategy.types.ts. -/
inductive ActionType where
  | set_price | increase_price | decrease_price
  | follow_competitor | set_to_median | set_to_breakeven
deriving DecidableEq

/-- The mode tag of an action value. -/
inductive ActionMode where
  | percentage | absolute
deriving DecidableEq

/-- An action (named Action in the TS source; renamed here to avoid the
Mathlib name); value and mode are optional in the TS type. -/
structure PriceAction where
  type : ActionType
  value : Option ℚ
  mode : Option ActionMode
deriving DecidableEq

/-- A strategy record (shared/types/strategy.types.ts) with the fields the
engine consults; opaque ids and timestamps are dropped. -/
structure Strategy where
  name : String
  type : StrategyType
  active : Bool
  conditions : List Condition
  actions : List PriceAction
  constraints : List Constraint
  stopConditions : List StopCondition
  allowedSignals : List String
  ignoredSignals : List String
  cooldownMinutes : ℚ
  maxChangesPerDay : ℚ

/-- ActionExecutor.execute: maps one action to a proposal; a missing value
and a zero value are both falsy in the JS guards.  The set_to_breakeven
branch has no guard on the variable cost rate (at 100 percent JS produces
Infinity; the rational model is only used below that rate). -/
def actionExecute (action : PriceAction) (context : SKUContext) :
    Except String PriceProposal :=
  match action.type with
  | .set_price =>
    match action.value with
    | none => .error "Action \"set_price\" requires a value"
    | some v =>
      if v = 0 then .error "Action \"set_price\" requires a value"
      else .ok { price := some v, confidence := none }
  | .increase_price =>
    match action.value with
    | none => .error "Action \"increase_price\" requires a value"
    | some v =>
      if v = 0 then .error "Action \"increase_price\" requires a value"
      else
        let delta := if action.mode = some .percentage then
          context.sku.currentPrice * (v / 100) else v
        .ok { price := some (context.sku.currentPrice + delta), confidence := none }
  | .decrease_price =>
    match action.value with
    | none => .error "Action \"decrease_price\" requires a value"
    | some v =>
      if v = 0 then .error "Action \"decrease_price\" requires a value"
      else
        let delta := if action.mode = some .percentage then
          context.sku.currentPrice * (v / 100) else v
        .ok { price := some (context.sku.currentPrice - delta), confidence := none }
  | .follow_competitor =>
    let targetPrice := context.marketData.minPrice
    let delta := action.value.getD 0
    .ok { price := some (if action.mode = some .percentage then
            targetPrice * (1 - delta / 100) else targetPrice - delta)
          confidence := none }
  | .set_to_median =>
    .ok { price := some context.marketData.medianPrice, confidence := none }
  | .set_to_breakeven =>
    let economics := context.sku.economics
    let fixedCosts := economics.costPrice + economics.logistics + economics.storage
    let variableCostRate :=
      (economics.wbCommission + economics.spp + economics.tax) / 100
    .ok { price := some ((⌈fixedCosts / (1 - variableCostRate)⌉ : ℤ) : ℚ)
          confidence := none }

/-- StrategyEngine.executeActions: only the first action runs. -/
def executeActions (actions : List PriceAction) (context : SKUContext) :
    Except String PriceProposal :=
  match actions with
  | [] => .error "No actions defined in strategy"
  | action :: _ => actionExecute action context

/-- StrategyEngine.evaluateStopCondition; time_elapsed and stock_level are
unimplemented TODO branches that always report false. -/
def evaluateStopCondition (stopCondition : StopCondition)
    (context : SKUContext) : Bool :=
  match stopCondition.type with
  | .price_reached => decide (context.sku.currentPrice ≤ stopCondition.value)
  | .position_reached =>
    match context.sku.position with
    | some p => decide (p ≤ stopCondition.value)
    | none => false
  | .time_elapsed => false
  | .stock_level => false

/-- StrategyEngine.checkStopConditions: any met stop condition stops. -/
def checkStopConditions (strategy : Strategy) (context : SKUContext) : Bool :=
  strategy.stopConditions.any fun sc => evaluateStopCondition sc context

/-- StrategyEngine.executeStrategyByType.  The import in the backend
StrategyEngine resolves competitive_hold to the synthetic Math.random
implementation of the backend CompetitiveHoldStrategy.ts; the rand stream
is threaded to it.  Unknown types throw. -/
def executeStrategyByType (strategy : Strategy) (context : SKUContext)
    (rand : ℕ → ℚ) : Except String PriceProposal :=
  match strategy.type with
  | .competitive_hold => .ok (competitiveHoldExecuteSynthetic context rand)
  | .price_leader => .ok (priceLeaderExecute context)
  | .margin_maximizer => .ok (marginMaximizerExecute context)
  | .inventory_driven => .error "Unknown strategy type: inventory_driven"
  | .clearance => .error "Unknown strategy type: clearance"

/-- StrategyEngine.evaluateStrategy: inactive strategies and met stop
conditions yield no proposal; defined conditions must all hold; explicit
actions win over the built-in per-type algorithms. -/
def evaluateStrategy (context : SKUContext) (strategy : Strategy)
    (rand : ℕ → ℚ) : Except String (Option PriceProposal) :=
  if strategy.active = false then .ok none
  else if checkStopConditions strategy context then .ok none
  else if 0 < strategy.conditions.length
      ∧ evaluateAll context strategy.conditions = false then .ok none
  else if 0 < strategy.actions.length then
    (executeActions strategy.actions context).map some
  else
    (executeStrategyByType strategy context rand).map some

/-- A context whose market snapshot spans prices 1000 to 2000, used to
exhibit the dependence of the synthetic competitive hold on Math.random. -/
def ctxRandom : SKUContext :=
  { sku := { id := "sku-r", currentPrice := 1200, position := none
             economics := econFixture }
    marketData := { minPrice := 1000, maxPrice := 2000, medianPrice := 1500
                    competitorCount := 10, competitors := some [] } }

/-- An active competitive-hold strategy with no explicit conditions,
actions or stop conditions. -/
def strategyCompetitiveHold : Strategy :=
  { name := "Competitive Hold", type := .competitive_hold, active := true
    conditions := [], actions := [], constraints := [], stopConditions := []
    allowedSignals := [], ignoredSignals := []
    cooldownMinutes := 360, maxChangesPerDay := 3 }

/-- A context whose snapshot carries no competitors array but a positive
median price: the part_004 competitive hold falls back to that median. -/
def ctxMedianFallback : SKUContext :=
  { sku := { id := "sku-f", currentPrice := 500, position := none
             economics := econFixture }
    marketData := { minPrice := 0, maxPrice := 0, medianPrice := 1000
                    competitorCount := 0, competitors := none } }

/-- The all-zero default snapshot the orchestrator substitutes when no
market data exists for a SKU. -/
def ctxNoMarket : SKUContext :=
  { sku := { id := "sku-z", currentPrice := 750, position := none
             economics := econFixture }
    marketData := { minPrice := 0, maxPrice := 0, medianPrice := 0
                    competitorCount := 0, competitors := some [] } }

/-- DEFAULT_COOLDOWN_MINUTES from shared/constants. -/
def DEFAULT_COOLDOWN_MINUTES : ℚ := 360

/-- The JS logical-or defaulting idiom on an optional numeric setting: a
missing value and an explicit 0 are both falsy and fall back to the
default. -/
def jsOrDefault (v : Option ℚ) (d : ℚ) : ℚ :=
  match v with
  | none => d
  | some x => if x = 0 then d else x

/-- SignalProcessor.getCooldownPeriod, as a function of the active strategy
row's cooldownMinutes (none when the SKU has no active strategy row):
minutes defaulted through the JS logical-or, converted to milliseconds. -/
def getCooldownPeriod (cooldownMinutes : Option ℚ) : ℚ :=
  jsOrDefault cooldownMinutes DEFAULT_COOLDOWN_MINUTES * 60 * 1000

/-- SignalProcessor.checkCooldown, as a function of the timestamp of the
most recent committed price change (milliseconds; none when the SKU has
none), the current time, and the cooldown setting.  True means the signal
may proceed, false is the cooldown rejection. -/
def checkCooldown (lastChangeTime : Option ℚ) (now : ℚ)
    (cooldownMinutes : Option ℚ) : Bool :=
  match lastChangeTime with
  | none => true
  | some t => decide (now - t ≥ getCooldownPeriod cooldownMinutes)

/-- A SKU-strategy attachment row (table sKUStrategy). -/
structure SKUStrategy where
  skuId : String
  strategyId : String
  active : Bool
deriving DecidableEq

/-- The updateMany step of the activate route: clear the active flag of
every attachment of the SKU. -/
def deactivateAllForSKU (db : List SKUStrategy) (skuId : String) :
    List SKUStrategy :=
  db.map fun a => if a.skuId == skuId then { a with active := false } else a

/-- The upsert step of the activate route: set the (skuId, strategyId) row
active, creating it active when absent.  The composite key is unique in
the table, so at most one row matches. -/
def upsertActivate (db : List SKUStrategy) (skuId strategyId : String) :
    List SKUStrategy :=
  if db.any fun a => a.skuId == skuId && a.strategyId == strategyId then
    db.map fun a =>
      if a.skuId == skuId && a.strategyId == strategyId then
        { a with active := true }
      else a
  else db ++ [{ skuId := skuId, strategyId := strategyId, active := true }]

/-- activateForSKU (strategy.routes.ts): deactivate every attachment of the
SKU, then upsert the chosen strategy active.  The auth and ownership
checks of the route reject without touching the table and are omitted. -/
def activateForSKU (db : List SKUStrategy) (skuId strategyId : String) :
    List SKUStrategy :=
  upsertActivate (deactivateAllForSKU db skuId) skuId strategyId

/-- attachToSKU (strategy.routes.ts): upsert with create inactive and an
empty update, so an existing row is left unchanged. -/
def attachToSKU (db : List SKUStrategy) (skuId strategyId : String) :
    List SKUStrategy :=
  if db.any fun a => a.skuId == skuId && a.strategyId == strategyId then db
  else db ++ [{ skuId := skuId, strategyId := strategyId, active := false }]

/-- The strategy ids of the active attachments of a SKU, in table order. -/
def activeStrategiesFor (db : List SKUStrategy) (skuId : String) :
    List String :=
  (db.filter fun a => a.skuId == skuId && a.active).map fun a => a.strategyId

/-- The number of rows carrying a given composite key. -/
def keyCount (db : List SKUStrategy) (skuId strategyId : String) : ℕ :=
  db.countP fun a => a.skuId == skuId && a.strategyId == strategyId

/-- A one-row table: strategy A active for sku-1. -/
def dbSample : List SKUStrategy := [⟨"sku-1", "strat-A", true⟩]

-- ===================== THEOREMS =====================

/-- round2 is monotone. -/
theorem round2_mono {x y : ℚ} (h : x ≤ y) : round2 x ≤ round2 y := by
  unfold round2 jsRound
  have hf : ⌊x * 100 + 1/2⌋ ≤ ⌊y * 100 + 1/2⌋ := by
    apply Int.floor_mono
    nlinarith
  have : ((⌊x * 100 + 1/2⌋ : ℤ) : ℚ) ≤ ((⌊y * 100 + 1/2⌋ : ℤ) : ℚ) := by
    exact_mod_cast hf
  linarith

/-- C2: on the fixture economics (cost 800, commission 15 percent,
logistics 50, storage 0, spp 0 percent, tax 6 percent), profit at price
1200 is exactly 98, margin at 1200 is exactly 8.17 after 2-decimal
rounding, and the breakeven rounds up to 1076. -/
theorem economics_reference_values :
    calculateProfit 1200 econFixture = 98
    ∧ calculateMargin 1200 econFixture = 817/100
    ∧ calculateBreakeven econFixture = .ok 1076 := by
  refine ⟨?_, ?_, ?_⟩
  · norm_num [calculateProfit, econFixture, round2, jsRound]
  · norm_num [calculateMargin, calculateProfit, econFixture, round2, jsRound]
  · norm_num [calculateBreakeven, econFixture, Int.ceil_eq_iff]

/-- C3 counterexample: the monotonicity claim fails for calculateMargin.
With a 50 percent commission and no fixed costs, the 2-decimal rounding of
profit plateaus between prices 1 and 1.001, so the rounded margin drops
from 50 to 49.95 although the price increased. -/
theorem margin_monotonicity_cex :
    (1 : ℚ) < 1001/1000
    ∧ calculateMargin (1001/1000) econHalf < calculateMargin 1 econHalf := by
  constructor
  · norm_num
  · norm_num [calculateMargin, calculateProfit, econHalf, round2, jsRound]

/-- C3 amended: for economics whose discount and commission-plus-tax
percentages lie in 0..100 and whose fixed costs are nonnegative, and for
positive prices, raising the price never lowers calculateProfit, and never
lowers the evaluator's unrounded margin; the engine's rounded
calculateMargin is exempted (see the counterexample). -/
theorem profit_margin_monotonicity (e : UnitEconomics) (p1 p2 : ℚ)
    (hspp0 : 0 ≤ e.spp) (hspp : e.spp ≤ 100)
    (hct0 : 0 ≤ e.wbCommission + e.tax) (hct : e.wbCommission + e.tax ≤ 100)
    (hfix : 0 ≤ e.costPrice + e.logistics + e.storage)
    (hp1 : 0 < p1) (hp : p1 ≤ p2) :
    calculateProfit p1 e ≤ calculateProfit p2 e
    ∧ conditionMargin p1 e ≤ conditionMargin p2 e := by
  have hk1 : (0:ℚ) ≤ 1 - e.spp / 100 := by linarith
  have hk2 : (0:ℚ) ≤ 1 - (e.wbCommission / 100 + e.tax / 100) := by linarith
  have hp2 : 0 < p2 := lt_of_lt_of_le hp1 hp
  constructor
  · unfold calculateProfit
    apply round2_mono
    nlinarith [mul_le_mul_of_nonneg_right hp hk1,
      mul_le_mul_of_nonneg_right
        (mul_le_mul_of_nonneg_right hp hk1) hk2]
  · unfold conditionMargin conditionProfit
    rw [div_mul_eq_mul_div, div_mul_eq_mul_div, div_le_div_iff₀ hp1 hp2]
    nlinarith [mul_le_mul_of_nonneg_left hp hfix, mul_pos hp1 hp2]

/-- Witness for the amended C3 theorem at the fixture economics and the
concrete prices 1200 and 1300. -/
theorem profit_margin_monotonicity_witness :
    calculateProfit 1200 econFixture ≤ calculateProfit 1300 econFixture
    ∧ conditionMargin 1200 econFixture ≤ conditionMargin 1300 econFixture :=
  profit_margin_monotonicity econFixture 1200 1300
    (by norm_num [econFixture]) (by norm_num [econFixture])
    (by norm_num [econFixture]) (by norm_num [econFixture])
    (by norm_num [econFixture]) (by norm_num) (by norm_num)


/-- checkConstraint never produces a below_breakeven error: that kind is
reserved for the unconditional floor check in validatePrice. -/
theorem checkConstraint_ne_below_breakeven (c : Constraint)
    (price profit margin : ℚ) (breakeven : ℤ) (err : PriceValidationError)
    (h : checkConstraint c price profit margin breakeven = some err) :
    err.type ≠ .below_breakeven := by
  rcases c with ⟨t, v, en⟩
  cases t <;> simp only [checkConstraint] at h <;> try split at h
  all_goals first
    | exact Option.noConfusion h
    | (injection h with h2
       subst h2
       simp)

/-- Every member of the constraint-produced error list has a kind other
than below_breakeven. -/
theorem constraint_errors_not_bb (price profit margin : ℚ) (breakeven : ℤ)
    (cs : List Constraint) (err : PriceValidationError)
    (hmem : err ∈ cs.filterMap fun c =>
      if c.enabled then checkConstraint c price profit margin breakeven else none) :
    err.type ≠ .below_breakeven := by
  rcases List.mem_filterMap.mp hmem with ⟨c, _, hc⟩
  by_cases hen : c.enabled
  · rw [if_pos hen] at hc
    exact checkConstraint_ne_below_breakeven c price profit margin breakeven err hc
  · rw [if_neg hen] at hc
    exact absurd hc (by simp)

/-- C1: whenever validatePrice returns a result and the proposed price is
strictly below the computed breakeven, the result is invalid and its error
list holds exactly one below_breakeven error, and that error is critical —
even with an empty constraint list. -/
theorem validatePrice_breakeven_floor (price : ℚ) (e : UnitEconomics)
    (cs : List Constraint) (r : PriceValidationResult) (b : ℤ)
    (hok : validatePrice price e cs = .ok r)
    (hb : calculateBreakeven e = .ok b)
    (hlt : price < (b : ℚ)) :
    r.valid = false
    ∧ r.errors.countP (fun err => err.type == PriceErrorType.below_breakeven) = 1
    ∧ r.errors.countP
        (fun err => err.type == PriceErrorType.below_breakeven && err.critical) = 1 := by
  classical
  set profit := calculateProfit price e with hprof
  set margin := calculateMargin price e with hmarg
  set errors0 := cs.filterMap (fun c =>
    if c.enabled then checkConstraint c price profit margin b else none) with hE0
  have hnotbb : ∀ err ∈ errors0, err.type ≠ PriceErrorType.below_breakeven := by
    intro err hmem
    exact constraint_errors_not_bb price profit margin b cs err (hE0 ▸ hmem)
  have hfind : errors0.find? (fun err => err.type == PriceErrorType.below_breakeven)
      = none := by
    apply List.find?_eq_none.mpr
    intro x hx
    simpa using hnotbb x hx
  have hEeq : validationErrors price profit margin b cs
      = errors0 ++ [breakevenErrorFor b] := by
    unfold validationErrors
    rw [← hE0, if_pos hlt, if_pos (by rw [hfind]; rfl)]
  have hcnt0 : errors0.countP
      (fun err => err.type == PriceErrorType.below_breakeven) = 0 := by
    apply List.countP_eq_zero.mpr
    intro a ha
    simpa using hnotbb a ha
  have hcnt0' : errors0.countP
      (fun err => err.type == PriceErrorType.below_breakeven && err.critical) = 0 := by
    apply List.countP_eq_zero.mpr
    intro a ha
    have hne := hnotbb a ha
    simp [hne]
  unfold validatePrice at hok
  rw [hb] at hok
  simp only [← hprof, ← hmarg] at hok
  rw [hEeq] at hok
  have hlen : 0 < (errors0 ++ [breakevenErrorFor b]).length := by simp
  rw [if_pos hlen] at hok
  cases hm : calculateMinAllowedPrice e cs with
  | error msg => rw [hm] at hok; exact absurd hok (by simp)
  | ok minAllowed =>
    rw [hm] at hok
    simp only [Except.ok.injEq] at hok
    subst hok
    refine ⟨by simp, ?_, ?_⟩
    · simp [List.countP_append, hcnt0, List.countP_cons, breakevenErrorFor]
    · simp [List.countP_append, hcnt0', List.countP_cons, breakevenErrorFor]

/-- Witness for C1: price 1000 with the fixture economics (breakeven 1076)
and no constraints produces the concrete invalid result resBelowBreakeven. -/
theorem validatePrice_breakeven_floor_witness :
    resBelowBreakeven.valid = false
    ∧ resBelowBreakeven.errors.countP
        (fun err => err.type == PriceErrorType.below_breakeven) = 1
    ∧ resBelowBreakeven.errors.countP
        (fun err => err.type == PriceErrorType.below_breakeven && err.critical) = 1 := by
  have hb : calculateBreakeven econFixture = .ok 1076 := by
    norm_num [calculateBreakeven, econFixture, Int.ceil_eq_iff]
  have hp : calculateProfit 1000 econFixture = -60 := by
    norm_num [calculateProfit, econFixture, round2, jsRound]
  have hm : calculateMargin 1000 econFixture = -6 := by
    norm_num [calculateMargin, hp, round2, jsRound]
  have hmin : calculateMinAllowedPrice econFixture [] = .ok 1076 := by
    simp [calculateMinAllowedPrice, hb, minAllowedLoop, Int.ceil_intCast]
  have herr : validationErrors 1000 (-60) (-6) 1076 [] = [breakevenErrorFor 1076] := by
    unfold validationErrors
    rw [if_pos (by norm_num : (1000 : ℚ) < ((1076 : ℤ) : ℚ))]
    simp
  have hok : validatePrice 1000 econFixture [] = .ok resBelowBreakeven := by
    unfold validatePrice
    rw [hb, hp, hm]
    dsimp only
    rw [herr]
    rw [if_pos (by simp : 0 < ([breakevenErrorFor 1076]).length), hmin]
    simp [resBelowBreakeven, breakevenErrorFor]
  exact validatePrice_breakeven_floor 1000 econFixture [] resBelowBreakeven 1076
    hok hb (by norm_num)

/-- calculatePriceForMargin only ever throws its fixed message. -/
theorem calculatePriceForMargin_error_msg (e : UnitEconomics) (v : ℚ) (msg : String)
    (h : calculatePriceForMargin e v = .error msg) :
    msg = "Cannot achieve target margin with current costs" := by
  simp only [calculatePriceForMargin] at h
  split at h
  · injection h with h2
    exact h2.symm
  · exact Except.noConfusion h

/-- calculatePriceForMargin throws exactly when the margin denominator is
not positive. -/
theorem calculatePriceForMargin_throws (e : UnitEconomics) (v : ℚ)
    (hden : 1 - (e.wbCommission + e.spp + e.tax) / 100 - v / 100 ≤ 0) :
    calculatePriceForMargin e v
      = .error "Cannot achieve target margin with current costs" := by
  simp only [calculatePriceForMargin]
  rw [if_pos hden]

/-- If the constraint list holds an enabled min_margin constraint whose
target is unreachable, the min-allowed-price loop throws, whatever the
accumulator. -/
theorem minAllowedLoop_error (e : UnitEconomics) (cs : List Constraint)
    (c : Constraint) (hmem : c ∈ cs) (hen : c.enabled = true)
    (hty : c.type = .min_margin)
    (hden : 1 - (e.wbCommission + e.spp + e.tax) / 100 - c.value / 100 ≤ 0) :
    ∀ acc, minAllowedLoop e cs acc
      = .error "Cannot achieve target margin with current costs" := by
  induction cs with
  | nil => cases hmem
  | cons d rest ih =>
    intro acc
    rcases List.mem_cons.mp hmem with heq | hmem2
    · subst heq
      simp only [minAllowedLoop, hen, if_true, hty]
      rw [calculatePriceForMargin_throws e c.value hden]
    · by_cases hd : d.enabled
      · cases hdty : d.type <;> simp only [minAllowedLoop, hd, if_true, hdty]
        · exact ih hmem2 _
        · exact ih hmem2 _
        · exact ih hmem2 _
        · cases hpm : calculatePriceForMargin e d.value with
          | error msg =>
            rw [calculatePriceForMargin_error_msg e d.value msg hpm]
          | ok p => exact ih hmem2 _
        · exact ih hmem2 _
        · exact ih hmem2 _
      · simp only [minAllowedLoop, hd, if_false]
        exact ih hmem2 _

/-- C10: validatePrice is not total.  Whenever the breakeven computes, the
validation pass records at least one error, and some enabled min_margin
constraint demands value/100 at least 1 minus the variable cost rate,
validatePrice throws the fixed exception from calculatePriceForMargin
while computing minAllowedPrice, instead of returning a result. -/
theorem validatePrice_min_margin_throws (price : ℚ) (e : UnitEconomics)
    (cs : List Constraint) (b : ℤ) (c : Constraint)
    (hb : calculateBreakeven e = .ok b)
    (hne : validationErrors price (calculateProfit price e)
      (calculateMargin price e) b cs ≠ [])
    (hmem : c ∈ cs) (hen : c.enabled = true) (hty : c.type = .min_margin)
    (hval : 1 - (e.wbCommission + e.spp + e.tax) / 100 ≤ c.value / 100) :
    validatePrice price e cs
      = .error "Cannot achieve target margin with current costs" := by
  have hden : 1 - (e.wbCommission + e.spp + e.tax) / 100 - c.value / 100 ≤ 0 := by
    linarith
  have hloop := minAllowedLoop_error e cs c hmem hen hty hden
  have hminp : calculateMinAllowedPrice e cs
      = .error "Cannot achieve target margin with current costs" := by
    unfold calculateMinAllowedPrice
    rw [hb]
    dsimp only
    rw [hloop ((b : ℤ) : ℚ)]
  unfold validatePrice
  rw [hb]
  dsimp only
  rw [if_pos (List.length_pos.mpr hne), hminp]

/-- Witness for C10: at price 1200 with the fixture economics and a single
enabled min_margin constraint of 100 percent, validatePrice throws. -/
theorem validatePrice_min_margin_throws_witness :
    validatePrice 1200 econFixture [minMarginConstraint]
      = .error "Cannot achieve target margin with current costs" := by
  have hb : calculateBreakeven econFixture = .ok 1076 := by
    norm_num [calculateBreakeven, econFixture, Int.ceil_eq_iff]
  have hp : calculateProfit 1200 econFixture = 98 := by
    norm_num [calculateProfit, econFixture, round2, jsRound]
  have hm : calculateMargin 1200 econFixture = 817/100 := by
    norm_num [calculateMargin, hp, round2, jsRound]
  have hne : validationErrors 1200 (calculateProfit 1200 econFixture)
      (calculateMargin 1200 econFixture) 1076 [minMarginConstraint] ≠ [] := by
    rw [hp, hm]
    norm_num [validationErrors, minMarginConstraint, checkConstraint]
    simp
  exact validatePrice_min_margin_throws 1200 econFixture [minMarginConstraint]
    1076 minMarginConstraint hb hne (List.mem_singleton_self _) rfl rfl
    (by norm_num [minMarginConstraint, econFixture])

/-- The and-loop accepts exactly when every member evaluates true. -/
theorem evaluateAll_eq_true_iff (context : SKUContext) (l : List Condition) :
    evaluateAll context l = true ↔ ∀ c ∈ l, evaluate context c = true := by
  induction l with
  | nil => simp [evaluateAll]
  | cons c rest ih => simp [evaluateAll, ih]

/-- The or-loop accepts exactly when some member evaluates true. -/
theorem evaluateAny_eq_true_iff (context : SKUContext) (l : List Condition) :
    evaluateAny context l = true ↔ ∃ c ∈ l, evaluate context c = true := by
  induction l with
  | nil => simp [evaluateAny]
  | cons c rest ih => simp [evaluateAny, ih]

/-- C6: the evaluator accepts only if the base comparison, every and-child
and (when the or-list is nonempty) some or-child all hold; one false
and-child forces rejection even with a true base comparison; a false base
comparison forces rejection regardless of the or-children; and a condition
over a metric that resolves to undefined evaluates false. -/
theorem conditionEvaluator_contract :
    (∀ context c, evaluate context c = true →
        baseComparison context c = true
        ∧ (∀ sc ∈ c.andList, evaluate context sc = true)
        ∧ (c.orList ≠ [] → ∃ sc ∈ c.orList, evaluate context sc = true))
    ∧ (∀ context c sc, sc ∈ c.andList → evaluate context sc = false →
        evaluate context c = false)
    ∧ (∀ context c, baseComparison context c = false →
        evaluate context c = false)
    ∧ (∀ context metric operator value andList orList,
        getMetricValue metric context = .undefinedM →
        evaluate context (.mk metric operator value andList orList) = false) := by
  refine ⟨?_, ?_, ?_, ?_⟩
  · intro context c h
    rcases c with ⟨m, o, v, aL, oL⟩
    simp only [evaluate] at h
    cases hm : getMetricValue m context with
    | undefinedM => rw [hm] at h; exact absurd h (by simp)
    | null => rw [hm] at h; exact absurd h (by simp)
    | num actual =>
      rw [hm] at h
      simp only [Bool.and_eq_true] at h
      obtain ⟨⟨hA, hB⟩, hR⟩ := h
      refine ⟨?_, ?_, ?_⟩
      · simp only [baseComparison, Condition.metric, Condition.operator,
          Condition.value, hm]
        exact hR
      · intro sc hsc
        exact (evaluateAll_eq_true_iff context aL).mp hA sc hsc
      · intro hne
        rcases Bool.or_eq_true_iff.mp hB with hemp | hany
        · exact absurd (List.isEmpty_iff.mp hemp) hne
        · exact (evaluateAny_eq_true_iff context oL).mp hany
  · intro context c sc hsc hfalse
    rcases c with ⟨m, o, v, aL, oL⟩
    simp only [Condition.andList] at hsc
    simp only [evaluate]
    cases hm : getMetricValue m context with
    | undefinedM => rfl
    | null => rfl
    | num actual =>
      have hA : evaluateAll context aL = false := by
        rw [← Bool.not_eq_true]
        intro hall
        have := (evaluateAll_eq_true_iff context aL).mp hall sc hsc
        rw [this] at hfalse
        exact Bool.noConfusion hfalse
      simp [hA]
  · intro context c hbase
    rcases c with ⟨m, o, v, aL, oL⟩
    simp only [baseComparison, Condition.metric, Condition.operator,
      Condition.value] at hbase
    simp only [evaluate]
    cases hm : getMetricValue m context with
    | undefinedM => rfl
    | null => rfl
    | num actual =>
      rw [hm] at hbase
      have hb2 : evaluateOperator actual o v = false := hbase
      simp [hb2]
  · intro context metric operator value andList orList hundef
    simp only [evaluate, hundef]

/-- Witness for C6, instantiating the and-dominance conjunct: on the sample
context the condition with a true base comparison and a false and-child
evaluates false. -/
theorem conditionEvaluator_contract_witness :
    evaluate ctxSample condAndFalse = false :=
  conditionEvaluator_contract.2.1 ctxSample condAndFalse condFalseChild
    (by simp [condAndFalse, Condition.andList])
    (by norm_num [evaluate, condFalseChild, ctxSample, getMetricValue,
      evaluateOperator, evaluateAll, evaluateAny])

/-- C9: the price-leader strategy holds the current price (confidence 0.9)
exactly when the market position is non-null and at most 3; otherwise —
larger position or null position — it proposes the 2 percent undercut of
the market minimum clamped to a 10 percent single-step decrease. -/
theorem priceLeader_spec (context : SKUContext) :
    (∀ p, context.sku.position = some p → p ≤ 3 →
      priceLeaderExecute context
        = { price := some context.sku.currentPrice, confidence := some 0.9 })
    ∧ (∀ p, context.sku.position = some p → 3 < p →
      priceLeaderExecute context = priceLeaderUndercut context)
    ∧ (context.sku.position = none →
      priceLeaderExecute context = priceLeaderUndercut context)
    ∧ (priceLeaderUndercut context).price
        = some (max (context.marketData.minPrice * 0.98)
            (context.sku.currentPrice - context.sku.currentPrice * 0.1)) := by
  refine ⟨?_, ?_, ?_, rfl⟩
  · intro p hp hle
    unfold priceLeaderExecute
    rw [hp]
    exact if_pos hle
  · intro p hp hgt
    unfold priceLeaderExecute
    rw [hp]
    exact if_neg (not_le.mpr hgt)
  · intro hp
    unfold priceLeaderExecute
    rw [hp]

/-- Witness for C9 on the sample context (position 5, above 3): the
strategy proposes the clamped undercut. -/
theorem priceLeader_spec_witness :
    priceLeaderExecute ctxSample = priceLeaderUndercut ctxSample :=
  (priceLeader_spec ctxSample).2.1 5 rfl (by norm_num)

/-- sortedInsert grows the length by one. -/
theorem sortedInsert_length (x : ℚ) (l : List ℚ) :
    (sortedInsert x l).length = l.length + 1 := by
  induction l with
  | nil => rfl
  | cons y rest ih =>
    unfold sortedInsert
    split
    · rfl
    · simp [ih]

/-- sortAsc preserves the length. -/
theorem sortAsc_length (l : List ℚ) : (sortAsc l).length = l.length := by
  induction l with
  | nil => rfl
  | cons x rest ih =>
    unfold sortAsc
    rw [sortedInsert_length, ih]
    rfl

/-- Trimming the lowest 20 percent of a single price removes it entirely
(ceil of 0.2 is 1). -/
theorem removeLowest_singleton (a : ℚ) : removeLowest [a] 0.2 = [] := by
  have hs : sortAsc [a] = [a] := rfl
  have hc : ⌈((1 : ℕ) : ℚ) * 0.2⌉ = (1 : ℤ) := by
    norm_num [Int.ceil_eq_iff]
  simp only [removeLowest, hs, List.length_singleton]
  rw [hc]
  rfl

/-- Trimming the lowest 20 percent of at least two prices keeps at least
one. -/
theorem removeLowest_ne_nil (l : List ℚ) (h2 : 2 ≤ l.length) :
    removeLowest l 0.2 ≠ [] := by
  simp only [removeLowest, sortAsc_length]
  intro hnil
  rw [List.drop_eq_nil_iff] at hnil
  rw [sortAsc_length] at hnil
  have hceil : ⌈(l.length : ℚ) * 0.2⌉ ≤ (l.length : ℤ) - 1 := by
    apply Int.ceil_le.mpr
    push_cast
    have h2q : (2 : ℚ) ≤ l.length := by exact_mod_cast h2
    linarith
  omega

/-- The median of a nonempty list is a number. -/
theorem median_ne_none (l : List ℚ) (h : l ≠ []) : median l ≠ none := by
  have hlen : (sortAsc l).length = l.length := sortAsc_length l
  have hpos : 0 < l.length := List.length_pos.mpr h
  simp only [median, hlen]
  split
  case isTrue hev =>
    have hev2 : l.length % 2 = 0 := by simpa using hev
    have h1 : (sortAsc l).get? (l.length / 2 - 1) ≠ none := by
      simp only [ne_eq, List.get?_eq_none]
      omega
    have h2 : (sortAsc l).get? (l.length / 2) ≠ none := by
      simp only [ne_eq, List.get?_eq_none]
      omega
    obtain ⟨a, ha⟩ := Option.ne_none_iff_exists'.mp h1
    obtain ⟨b, hb⟩ := Option.ne_none_iff_exists'.mp h2
    rw [ha, hb]
    simp
  case isFalse hodd =>
    simp only [ne_eq, List.get?_eq_none]
    omega

/-- C5 amended: the competitive-hold strategy of src/unnamed/part_004.
Prices are gathered from the snapshot competitor list (discounted price,
in-stock, positive) when that list is present; when the snapshot has no
competitor list, a positive medianPrice serves as the single gathered
price.  No gathered price: hold the current price at confidence 0.3 (in
particular on the all-zero default snapshot).  Exactly one gathered price:
the 20 percent trim empties the list and the proposal price is NaN (none).
Two or more: the trimmed median exists, and the proposal holds the current
price inside the 2 percent noise band, else proposes the rounded median. -/
theorem competitiveHold_spec (context : SKUContext) :
    (getCompetitorPrices context.marketData = [] →
      competitiveHoldExecute context
        = { price := some context.sku.currentPrice, confidence := some 0.3 })
    ∧ ((getCompetitorPrices context.marketData).length = 1 →
      competitiveHoldExecute context = { price := none, confidence := some 0.8 })
    ∧ (2 ≤ (getCompetitorPrices context.marketData).length →
      median (removeLowest (getCompetitorPrices context.marketData) 0.2) ≠ none)
    ∧ (∀ t, getCompetitorPrices context.marketData ≠ [] →
      median (removeLowest (getCompetitorPrices context.marketData) 0.2) = some t →
      competitiveHoldExecute context
        = if context.sku.currentPrice ≠ 0
            ∧ |t - context.sku.currentPrice| / context.sku.currentPrice < 0.02
          then { price := some context.sku.currentPrice, confidence := some 0.7 }
          else { price := some ((jsRound t : ℤ) : ℚ), confidence := some 0.8 })
    ∧ (context.marketData.competitors = none →
      getCompetitorPrices context.marketData
        = if context.marketData.medianPrice > 0
          then [context.marketData.medianPrice] else []) := by
  refine ⟨?_, ?_, ?_, ?_, ?_⟩
  · intro h
    simp [competitiveHoldExecute, h]
  · intro h1
    obtain ⟨a, ha⟩ := List.length_eq_one.mp h1
    have hmed : median (removeLowest (getCompetitorPrices context.marketData) 0.2)
        = none := by
      rw [ha, removeLowest_singleton]
      rfl
    simp only [competitiveHoldExecute, hmed]
    rw [if_neg (by simp [ha])]
  · intro h2
    exact median_ne_none _ (removeLowest_ne_nil _ h2)
  · intro t hne hmed
    simp only [competitiveHoldExecute, hmed]
    rw [if_neg (by simpa [List.isEmpty_iff] using hne)]
  · intro h
    simp [getCompetitorPrices, h]

/-- Witness for C5 on the all-zero default snapshot: the strategy holds the
current price 750 at confidence 0.3. -/
theorem competitiveHold_spec_witness :
    competitiveHoldExecute ctxNoMarket
      = { price := some 750, confidence := some 0.3 } :=
  (competitiveHold_spec ctxNoMarket).1 rfl

/-- C5 counterexample to the claim as stated: on a snapshot with no
competitor list at all (so no in-stock discounted competitor prices exist)
but a positive median price, the strategy does not hold the current price
with low confidence — the median fallback gathers one price, the trim
empties it, and the proposed price is NaN (none) at confidence 0.8. -/
theorem competitiveHold_fallback_cex :
    ctxMedianFallback.marketData.competitors = none
    ∧ (competitiveHoldExecute ctxMedianFallback).price = none
    ∧ (competitiveHoldExecute ctxMedianFallback).price
        ≠ some ctxMedianFallback.sku.currentPrice
    ∧ (competitiveHoldExecute ctxMedianFallback).confidence ≠ some 0.3 := by
  have hg : getCompetitorPrices ctxMedianFallback.marketData = [1000] := by
    norm_num [getCompetitorPrices, ctxMedianFallback]
  have hmed : median (removeLowest
      (getCompetitorPrices ctxMedianFallback.marketData) 0.2) = none := by
    rw [hg, removeLowest_singleton]
    rfl
  have hr : competitiveHoldExecute ctxMedianFallback
      = { price := none, confidence := some 0.8 } := by
    simp only [competitiveHoldExecute, hmed]
    rw [if_neg (by simp [hg])]
  refine ⟨rfl, ?_, ?_, ?_⟩
  · rw [hr]
  · rw [hr]
    simp
  · rw [hr]
    norm_num

set_option maxHeartbeats 1000000 in
/-- C4: strategy evaluation is NOT deterministic in the passed-in inputs.
The backend competitive-hold implementation samples ten Math.random draws;
with the same context and strategy, the all-zeros draw stream proposes
1000 while the all-halves stream proposes 1500. -/
theorem evaluateStrategy_random_dependence :
    evaluateStrategy ctxRandom strategyCompetitiveHold (fun _ => 0)
      ≠ evaluateStrategy ctxRandom strategyCompetitiveHold (fun _ => 1/2) := by
  have hrange : List.range 10 = [0, 1, 2, 3, 4, 5, 6, 7, 8, 9] := rfl
  have h1 : evaluateStrategy ctxRandom strategyCompetitiveHold (fun _ => 0)
      = .ok (some { price := some 1000, confidence := some 0.8 }) := by
    norm_num [evaluateStrategy, strategyCompetitiveHold, checkStopConditions,
      executeStrategyByType, competitiveHoldExecuteSynthetic, generateTopPrices,
      ctxRandom, removeLowest, sortAsc, sortedInsert, median, hrange,
      Except.map, Int.ceil_eq_iff]
  have h2 : evaluateStrategy ctxRandom strategyCompetitiveHold (fun _ => 1/2)
      = .ok (some { price := some 1500, confidence := some 0.8 }) := by
    norm_num [evaluateStrategy, strategyCompetitiveHold, checkStopConditions,
      executeStrategyByType, competitiveHoldExecuteSynthetic, generateTopPrices,
      ctxRandom, removeLowest, sortAsc, sortedInsert, median, hrange,
      Except.map, Int.ceil_eq_iff]
  rw [h1, h2]
  simp

/-- C7 counterexample to the claim as stated: with the cooldown explicitly
configured as 0 minutes (set, not unset) and one minute elapsed since the
last committed change, the elapsed time is not below the configured
cooldown, yet the gate still rejects — the JS logical-or treats the set
value 0 as falsy and substitutes 360 minutes. -/
theorem cooldown_zero_cex :
    checkCooldown (some 0) 60000 (some 0) = false
    ∧ ¬ ((60000 : ℚ) - 0 < 0 * 60 * 1000) := by
  constructor
  · norm_num [checkCooldown, getCooldownPeriod, jsOrDefault,
      DEFAULT_COOLDOWN_MINUTES]
  · norm_num

/-- C7 amended: the cooldown gate always admits a SKU with no prior
committed change; with a prior change at time t it rejects exactly when
the elapsed time is below the effective cooldown, where the effective
cooldown is the strategy's setting defaulted to 360 minutes when unset or
set to 0 (JS falsy).  In particular, with a 360-minute cooldown a signal
1 second after the change is rejected and one 361 minutes later is
admitted. -/
theorem cooldown_gate_spec :
    (∀ now m, checkCooldown none now m = true)
    ∧ (∀ t now m, checkCooldown (some t) now m = false
        ↔ now - t < jsOrDefault m DEFAULT_COOLDOWN_MINUTES * 60 * 1000)
    ∧ checkCooldown (some 0) 1000 (some 360) = false
    ∧ checkCooldown (some 0) (361 * 60 * 1000) (some 360) = true := by
  refine ⟨fun now m => rfl, fun t now m => ?_, ?_, ?_⟩
  · simp [checkCooldown, getCooldownPeriod, not_le]
  · norm_num [checkCooldown, getCooldownPeriod, jsOrDefault,
      DEFAULT_COOLDOWN_MINUTES]
  · norm_num [checkCooldown, getCooldownPeriod, jsOrDefault,
      DEFAULT_COOLDOWN_MINUTES]

/-- Witness for C7: one minute after a committed change, with the cooldown
setting absent (default 360), the gate rejects. -/
theorem cooldown_gate_spec_witness : checkCooldown (some 0) 60000 none = false :=
  (cooldown_gate_spec.2.1 0 60000 none).mpr
    (by norm_num [jsOrDefault, DEFAULT_COOLDOWN_MINUTES])

/-- activeStrategiesFor on a cons: the head contributes its strategy id
exactly when it is an active attachment of the SKU. -/
theorem activeStrategiesFor_cons (a : SKUStrategy) (t : List SKUStrategy)
    (s : String) :
    activeStrategiesFor (a :: t) s
      = if a.skuId == s && a.active then
          a.strategyId :: activeStrategiesFor t s
        else activeStrategiesFor t s := by
  simp only [activeStrategiesFor, List.filter_cons]
  split
  · simp
  · rfl

/-- activeStrategiesFor distributes over append. -/
theorem activeStrategiesFor_append (l1 l2 : List SKUStrategy) (s : String) :
    activeStrategiesFor (l1 ++ l2) s
      = activeStrategiesFor l1 s ++ activeStrategiesFor l2 s := by
  simp [activeStrategiesFor, List.filter_append]

/-- After deactivateAllForSKU, every attachment of the SKU is inactive. -/
theorem deactivateAllForSKU_inactive (db : List SKUStrategy) (s : String) :
    ∀ a ∈ deactivateAllForSKU db s, a.skuId = s → a.active = false := by
  intro a ha hsk
  simp only [deactivateAllForSKU, List.mem_map] at ha
  obtain ⟨b, _, hfb⟩ := ha
  by_cases hbs : b.skuId == s
  · rw [if_pos hbs] at hfb
    rw [← hfb]
  · rw [if_neg hbs] at hfb
    subst hfb
    exact absurd (beq_iff_eq.mpr hsk) hbs

/-- deactivateAllForSKU does not change which rows carry a key. -/
theorem keyCount_deactivateAllForSKU (db : List SKUStrategy) (s st : String) :
    keyCount (deactivateAllForSKU db s) s st = keyCount db s st := by
  unfold keyCount deactivateAllForSKU
  rw [List.countP_map]
  apply List.countP_congr
  intro a _
  simp only [Function.comp]
  by_cases h : (a.skuId == s) = true
  · rw [if_pos h]
  · rw [if_neg h]

/-- After deactivateAllForSKU, the SKU has no active attachment. -/
theorem deactivateAllForSKU_none_active (db : List SKUStrategy) (s : String) :
    activeStrategiesFor (deactivateAllForSKU db s) s = [] := by
  unfold activeStrategiesFor
  rw [List.filter_eq_nil.mpr, List.map_nil]
  intro a ha
  by_cases hs : a.skuId == s
  · have := deactivateAllForSKU_inactive db s a ha (beq_iff_eq.mp hs)
    simp [this]
  · simp [hs]

/-- The activation map leaves a key-free, all-inactive table without active
attachments of the SKU. -/
theorem upsert_map_inactive (s st : String) (l : List SKUStrategy)
    (hinact : ∀ a ∈ l, a.skuId = s → a.active = false)
    (hkey : l.countP (fun a => a.skuId == s && a.strategyId == st) = 0) :
    activeStrategiesFor (l.map fun a =>
      if a.skuId == s && a.strategyId == st then { a with active := true }
      else a) s = [] := by
  induction l with
  | nil => rfl
  | cons a t ih =>
    have hpa : (a.skuId == s && a.strategyId == st) = false := by
      by_cases hp : (a.skuId == s && a.strategyId == st) = true
      · rw [List.countP_cons, if_pos hp] at hkey
        omega
      · simpa using hp
    have hkeyt : t.countP (fun a => a.skuId == s && a.strategyId == st) = 0 := by
      rw [List.countP_cons, hpa] at hkey
      simpa using hkey
    rw [List.map_cons, if_neg (by simp [hpa]), activeStrategiesFor_cons]
    rw [if_neg ?hcond]
    case hcond =>
      by_cases hs : a.skuId == s
      · have := hinact a (List.mem_cons_self a t) (beq_iff_eq.mp hs)
        simp [this]
      · simp [hs]
    exact ih (fun b hb hbs => hinact b (List.mem_cons_of_mem a hb) hbs) hkeyt

/-- The activation map turns the unique key row of an all-inactive table
into the single active attachment of the SKU. -/
theorem upsert_map_active (s st : String) (l : List SKUStrategy)
    (hinact : ∀ a ∈ l, a.skuId = s → a.active = false)
    (hkey : l.countP (fun a => a.skuId == s && a.strategyId == st) = 1) :
    activeStrategiesFor (l.map fun a =>
      if a.skuId == s && a.strategyId == st then { a with active := true }
      else a) s = [st] := by
  induction l with
  | nil => simp [List.countP_nil] at hkey
  | cons a t ih =>
    by_cases hp : (a.skuId == s && a.strategyId == st) = true
    · have hkeyt : t.countP (fun a => a.skuId == s && a.strategyId == st) = 0 := by
        rw [List.countP_cons, if_pos hp] at hkey
        omega
      have hp2 := hp
      simp only [Bool.and_eq_true] at hp2
      obtain ⟨hsk, hst⟩ := hp2
      rw [List.map_cons, if_pos hp, activeStrategiesFor_cons]
      rw [if_pos (by simp [hsk])]
      rw [upsert_map_inactive s st t
        (fun b hb hbs => hinact b (List.mem_cons_of_mem a hb) hbs) hkeyt]
      rw [beq_iff_eq.mp hst]
    · have hpa : (a.skuId == s && a.strategyId == st) = false := by
        simpa using hp
      have hkeyt : t.countP (fun a => a.skuId == s && a.strategyId == st) = 1 := by
        rw [List.countP_cons, hpa] at hkey
        simpa using hkey
      rw [List.map_cons, if_neg (by simp [hpa]), activeStrategiesFor_cons]
      rw [if_neg ?hcond]
      case hcond =>
        by_cases hs : a.skuId == s
        · have := hinact a (List.mem_cons_self a t) (beq_iff_eq.mp hs)
          simp [this]
        · simp [hs]
      exact ih (fun b hb hbs => hinact b (List.mem_cons_of_mem a hb) hbs) hkeyt

/-- Deactivating the attachments of one SKU leaves the rows of every other
SKU unchanged, as seen through a filter on that other SKU. -/
theorem filter_other_deactivateAllForSKU (db : List SKUStrategy)
    (s other : String) (hne : other ≠ s) :
    (deactivateAllForSKU db s).filter (fun a => a.skuId == other)
      = db.filter fun a => a.skuId == other := by
  induction db with
  | nil => rfl
  | cons a t ih =>
    simp only [deactivateAllForSKU, List.map_cons, List.filter_cons]
    by_cases hs : (a.skuId == s) = true
    · rw [if_pos hs]
      have hao : (a.skuId == other) = false := by
        rw [beq_eq_false_iff_ne, beq_iff_eq.mp hs]
        exact fun h => hne h.symm
      rw [if_neg (by simp [hao]), if_neg (by simp [hao])]
      exact ih
    · rw [if_neg hs]
      by_cases hao : (a.skuId == other) = true
      · rw [if_pos hao, if_pos hao]
        exact congrArg (List.cons a) ih
      · rw [if_neg hao, if_neg hao]
        exact ih

/-- The activation upsert map leaves the rows of every other SKU
unchanged. -/
theorem filter_other_upsertMap (l : List SKUStrategy) (s st other : String)
    (hne : other ≠ s) :
    (l.map fun a =>
      if a.skuId == s && a.strategyId == st then { a with active := true }
      else a).filter (fun a => a.skuId == other)
      = l.filter fun a => a.skuId == other := by
  induction l with
  | nil => rfl
  | cons a t ih =>
    rw [List.map_cons, List.filter_cons, List.filter_cons]
    by_cases hp : (a.skuId == s && a.strategyId == st) = true
    · rw [if_pos hp]
      have hp2 := hp
      simp only [Bool.and_eq_true] at hp2
      have hao : (a.skuId == other) = false := by
        rw [beq_eq_false_iff_ne, beq_iff_eq.mp hp2.1]
        exact fun h => hne h.symm
      rw [if_neg (by simp [hao]), if_neg (by simp [hao])]
      exact ih
    · rw [if_neg hp]
      by_cases hao : (a.skuId == other) = true
      · rw [if_pos hao, if_pos hao, ih]
      · rw [if_neg hao, if_neg hao]
        exact ih

/-- The whole activate route leaves the rows of every other SKU
unchanged. -/
theorem filter_other_activateForSKU (db : List SKUStrategy)
    (s st other : String) (hne : other ≠ s) :
    (activateForSKU db s st).filter (fun a => a.skuId == other)
      = db.filter fun a => a.skuId == other := by
  unfold activateForSKU upsertActivate
  split
  · rw [filter_other_upsertMap _ s st other hne,
      filter_other_deactivateAllForSKU db s other hne]
  · rw [List.filter_append, filter_other_deactivateAllForSKU db s other hne]
    have hs : ((⟨s, st, true⟩ : SKUStrategy).skuId == other) = false := by
      rw [beq_eq_false_iff_ne]
      exact fun h => hne h.symm
    simp [hs]

/-- C8: provided the composite key (skuId, strategyId) is unique in the
table (the schema's unique constraint), activating a strategy B for a SKU
leaves that SKU with exactly one active attachment — B — and leaves the
attachment rows of every other SKU untouched, preserving the at-most-one-
active invariant globally. -/
theorem activateForSKU_single_active (db : List SKUStrategy) (s st : String)
    (hkey : keyCount db s st ≤ 1) :
    activeStrategiesFor (activateForSKU db s st) s = [st]
    ∧ ∀ other, other ≠ s →
      (activateForSKU db s st).filter (fun a => a.skuId == other)
        = db.filter fun a => a.skuId == other := by
  refine ⟨?_, fun other hne => filter_other_activateForSKU db s st other hne⟩
  unfold keyCount at hkey
  unfold activateForSKU upsertActivate
  have hinact := deactivateAllForSKU_inactive db s
  split
  case isTrue hany =>
    have hpos : 0 < (deactivateAllForSKU db s).countP
        (fun a => a.skuId == s && a.strategyId == st) :=
      List.countP_pos.mpr (List.any_eq_true.mp hany)
    have hc : (deactivateAllForSKU db s).countP
        (fun a => a.skuId == s && a.strategyId == st) = 1 := by
      have heq := keyCount_deactivateAllForSKU db s st
      unfold keyCount at heq
      omega
    exact upsert_map_active s st _ hinact hc
  case isFalse hnone =>
    rw [activeStrategiesFor_append, deactivateAllForSKU_none_active]
    simp [activeStrategiesFor]

/-- Witness for C8: on a table where strategy A is active for sku-1,
activating strategy B leaves B as the single active attachment. -/
theorem activateForSKU_single_active_witness :
    activeStrategiesFor (activateForSKU dbSample "sku-1" "strat-B") "sku-1"
      = ["strat-B"] :=
  (activateForSKU_single_active dbSample "sku-1" "strat-B" (by decide)).1
